import Mathlib

/-
Verification of the Hivemind SDK v2 core (hivemind-sdk-v2.py).

The Python source is shallowly embedded: Python strings are Lean strings
(lists of Unicode scalar values); where lone UTF-16 surrogates matter
(sanitize_unicode) Python strings are instead lists of raw code points
(List Nat).  Parsed JSON values are the inductive type J.  Stateful
methods become pure functions from explicit state (and from the outcome
of external processes) to new state plus the list of emitted/yielded
events, each event being the J object the Python code would print.
-/

namespace Hivemind

-- =========================================================================
-- JSON values (results of json.loads / arguments of json.dumps)
-- =========================================================================

inductive J where
  | null : J
  | bool (b : Bool) : J
  | num (n : Int) : J
  | str (s : String) : J
  | arr (xs : List J) : J
  | obj (kvs : List (String × J)) : J

/-- First-match association-list lookup; Python dicts parsed from JSON have
unique keys, for which this is exact dict lookup. -/
def lookupKV : List (String × J) → String → Option J
  | [], _ => none
  | (k', v) :: rest, k => if k' = k then some v else lookupKV rest k

/-- dict.get(k): None when the key is missing (or the receiver not a dict). -/
def jGet : J → String → Option J
  | J.obj kvs, k => lookupKV kvs k
  | _, _ => none

/-- dict.get(k) restricted to string values: `some s` exactly when the field
is present and a JSON string.  Python code comparing `event.get(k, "")` with
a non-empty string literal matches iff this is `some` of that literal. -/
def jStrField (j : J) (k : String) : Option String :=
  match jGet j k with
  | some (J.str s) => some s
  | _ => none

/-- Python truthiness of a JSON-decoded value. -/
def jTruthy : J → Bool
  | J.null => false
  | J.bool b => b
  | J.num n => n != 0
  | J.str s => s != ""
  | J.arr xs => !xs.isEmpty
  | J.obj kvs => !kvs.isEmpty

/-- Truthiness of dict.get(k) (missing key = None = falsy): `if cmd.get(k):`. -/
def truthyOpt : Option J → Bool
  | some v => jTruthy v
  | none => false

-- =========================================================================
-- Python str.strip / lstrip / rstrip (the whitespace set of str.isspace)
-- =========================================================================

/-- The characters Python str.strip() removes (str.isspace code points). -/
def pySpaceChars : List Char :=
  [' ', '\t', '\n', '\r', '\x0b', '\x0c',
   '\x1c', '\x1d', '\x1e', '\x1f', '\x85', '\xa0',
   '\u1680', '\u2000', '\u2001', '\u2002', '\u2003', '\u2004', '\u2005',
   '\u2006', '\u2007', '\u2008', '\u2009', '\u200a',
   '\u2028', '\u2029', '\u202f', '\u205f', '\u3000']

def pyIsSpace (c : Char) : Bool := pySpaceChars.contains c

/-- Python s.lstrip() on the character list of s. -/
def lstripL (l : List Char) : List Char := l.dropWhile pyIsSpace

/-- Python s.rstrip() on the character list of s. -/
def rstripL (l : List Char) : List Char := l.rdropWhile pyIsSpace

/-- Python s.strip() on the character list of s. -/
def stripL (l : List Char) : List Char := rstripL (lstripL l)

/-- Python s.strip() on strings. -/
def stripS (s : String) : String := String.mk (stripL s.data)

-- =========================================================================
-- clean_role_markers (hivemind-sdk-v2.py lines 324-361)
-- =========================================================================

/-- The fixed marker list of clean_role_markers (Title case and ALL CAPS). -/
def roleMarkers : List (List Char) :=
  ["Human:", "Assistant:", "User:", "System:",
   "HUMAN:", "ASSISTANT:", "USER:", "SYSTEM:"].map String.data

/-- One pass of the inner `for m in markers` loop stripping markers from the
start: on a match, drop the marker, lstrip, and keep scanning the remaining
markers against the updated text; the Bool is Python's sticky `changed`. -/
def stripPrefixPass : List (List Char) → List Char → List Char × Bool
  | [], r => (r, false)
  | m :: ms, r =>
    if m.isPrefixOf r then
      ((stripPrefixPass ms (lstripL (r.drop m.length))).1, true)
    else
      stripPrefixPass ms r

/-- The outer `while changed` loop for start markers; fuel bounds the number
of passes (each changed pass shortens the text, so length + 1 passes
always reach the loop's fixed point). -/
def stripPrefixLoop : Nat → List Char → List Char
  | 0, r => r
  | fuel + 1, r =>
    if (stripPrefixPass roleMarkers r).2 then
      stripPrefixLoop fuel (stripPrefixPass roleMarkers r).1
    else r

/-- One pass of the inner loop stripping markers from the end:
`result = result[:-len(m)].rstrip()` on a suffix match. -/
def stripSuffixPass : List (List Char) → List Char → List Char × Bool
  | [], r => (r, false)
  | m :: ms, r =>
    if m.isSuffixOf r then
      ((stripSuffixPass ms (rstripL (r.take (r.length - m.length)))).1, true)
    else
      stripSuffixPass ms r

/-- The outer `while changed` loop for end markers. -/
def stripSuffixLoop : Nat → List Char → List Char
  | 0, r => r
  | fuel + 1, r =>
    if (stripSuffixPass roleMarkers r).2 then
      stripSuffixLoop fuel (stripSuffixPass roleMarkers r).1
    else r

/-- clean_role_markers on the character list: `if not text: return text`,
then strip(), then the two marker loops. -/
def cleanCore (t : List Char) : List Char :=
  if t = [] then t
  else
    let r0 := stripL t
    let r1 := stripPrefixLoop (r0.length + 1) r0
    stripSuffixLoop (r1.length + 1) r1

/-- clean_role_markers (the spec's strip_role_markers). -/
def clean_role_markers (s : String) : String := String.mk (cleanCore s.data)

-- =========================================================================
-- sanitize_unicode (hivemind-sdk-v2.py lines 171-186)
--
-- Python strings are sequences of code points that may include lone UTF-16
-- surrogates, so here text is List Nat.  sanitize_unicode is
-- text.encode('utf-8', errors='surrogatepass').decode('utf-8',
-- errors='replace'); the two codec calls are embedded at byte level.
-- =========================================================================

/-- UTF-8 encoding of one code point; errors='surrogatepass' encodes a
surrogate like any other 3-byte code point. -/
def encodeCP (c : Nat) : List Nat :=
  if c < 0x80 then [c]
  else if c < 0x800 then [0xC0 + c / 0x40, 0x80 + c % 0x40]
  else if c < 0x10000 then
    [0xE0 + c / 0x1000, 0x80 + (c / 0x40) % 0x40, 0x80 + c % 0x40]
  else
    [0xF0 + c / 0x40000, 0x80 + (c / 0x1000) % 0x40,
     0x80 + (c / 0x40) % 0x40, 0x80 + c % 0x40]

/-- bytes = text.encode('utf-8', errors='surrogatepass'). -/
def pyEncodeSurrogatepass : List Nat → List Nat
  | [] => []
  | c :: rest => encodeCP c ++ pyEncodeSurrogatepass rest

/-- A UTF-8 continuation byte. -/
def isCont (b : Nat) : Bool := 0x80 ≤ b && b ≤ 0xBF

/-- Valid second byte of a 3-byte sequence led by b (RFC 3629 ranges, as the
CPython strict UTF-8 decoder checks them: E0 needs A0..BF, ED needs 80..9F,
so surrogate encodings are rejected byte-by-byte). -/
def cont3OK (b b2 : Nat) : Bool :=
  if b = 0xE0 then 0xA0 ≤ b2 && b2 ≤ 0xBF
  else if b = 0xED then 0x80 ≤ b2 && b2 ≤ 0x9F
  else isCont b2

/-- Valid second byte of a 4-byte sequence led by b (F0 needs 90..BF,
F4 needs 80..8F). -/
def cont4OK (b b2 : Nat) : Bool :=
  if b = 0xF0 then 0x90 ≤ b2 && b2 ≤ 0xBF
  else if b = 0xF4 then 0x80 ≤ b2 && b2 ≤ 0x8F
  else isCont b2

/-- bytes.decode('utf-8', errors='replace') with CPython's maximal-subpart
replacement: each invalid byte run becomes one U+FFFD per rejected start
byte, and a truncated valid start consumes its valid continuation bytes.
Fuel is consumed one unit per emitted code point; the byte length is
always enough fuel since every step consumes at least one byte. -/
def decodeLoop : Nat → List Nat → List Nat
  | 0, _ => []
  | _ + 1, [] => []
  | fuel + 1, b :: rest =>
    if b < 0x80 then b :: decodeLoop fuel rest
    else if b < 0xC2 then 0xFFFD :: decodeLoop fuel rest
    else if b < 0xE0 then
      match rest with
      | [] => [0xFFFD]
      | b2 :: r2 =>
        if isCont b2 then ((b - 0xC0) * 0x40 + (b2 - 0x80)) :: decodeLoop fuel r2
        else 0xFFFD :: decodeLoop fuel rest
    else if b < 0xF0 then
      match rest with
      | [] => [0xFFFD]
      | b2 :: r2 =>
        if cont3OK b b2 then
          match r2 with
          | [] => [0xFFFD]
          | b3 :: r3 =>
            if isCont b3 then
              ((b - 0xE0) * 0x1000 + (b2 - 0x80) * 0x40 + (b3 - 0x80)) ::
                decodeLoop fuel r3
            else 0xFFFD :: decodeLoop fuel r2
        else 0xFFFD :: decodeLoop fuel rest
    else if b < 0xF5 then
      match rest with
      | [] => [0xFFFD]
      | b2 :: r2 =>
        if cont4OK b b2 then
          match r2 with
          | [] => [0xFFFD]
          | b3 :: r3 =>
            if isCont b3 then
              match r3 with
              | [] => [0xFFFD]
              | b4 :: r4 =>
                if isCont b4 then
                  ((b - 0xF0) * 0x40000 + (b2 - 0x80) * 0x1000 +
                    (b3 - 0x80) * 0x40 + (b4 - 0x80)) :: decodeLoop fuel r4
                else 0xFFFD :: decodeLoop fuel r3
            else 0xFFFD :: decodeLoop fuel r2
        else 0xFFFD :: decodeLoop fuel rest
    else 0xFFFD :: decodeLoop fuel rest

/-- text = bytes.decode('utf-8', errors='replace'). -/
def pyDecodeReplace (bs : List Nat) : List Nat := decodeLoop bs.length bs

/-- sanitize_unicode on raw code points: `if not text: return text`, then the
encode/decode round trip.  (The except-fallback of the source is dead code:
surrogatepass encoding and replace decoding never raise.) -/
def sanitize_unicode (t : List Nat) : List Nat :=
  if t = [] then t else pyDecodeReplace (pyEncodeSurrogatepass t)

/-- sanitize_unicode restricted to Lean strings (whose characters are always
valid scalar values, on which the codec round trip is the identity). -/
def sanitize_unicode_str (s : String) : String :=
  String.mk ((sanitize_unicode (s.data.map Char.toNat)).map Char.ofNat)

-- =========================================================================
-- History journal (BaseAgent._save_to_history / _load_history /
-- get_context_restore_message, hivemind-sdk-v2.py lines 410-466)
-- =========================================================================

/-- One parsed history line {timestamp, role, content}.  (The source reads
fields with entry.get(k, default); entries written by the core always carry
all three fields, which is what this structure models.) -/
structure HEntry where
  timestamp : String
  role : String
  content : String
  deriving DecidableEq

/-- Python s[:n] (slice of at most n code points). -/
def pyTruncate (s : String) (n : Nat) : String := String.mk (s.data.take n)

/-- BaseAgent._save_to_history.  The file is the list of entries already
written; ioFails = true means the mkdir/open/write raised, which the
`except Exception: pass` swallows, leaving the file unchanged. -/
def saveToHistory (hist : List HEntry) (role content ts : String)
    (ioFails : Bool) : List HEntry :=
  let cleaned := clean_role_markers content
  if cleaned = "" ∧ content ≠ "" then hist
  else if ioFails then hist
  else hist ++ [⟨ts, role, pyTruncate cleaned 2000⟩]

/-- BaseAgent._load_history: entries[-maxEntries:]. -/
def loadHistoryTail (hist : List HEntry) (maxEntries : Nat) : List HEntry :=
  hist.drop (hist.length - maxEntries)

/-- Python '\n'.join(lines). -/
def joinLines : List String → String
  | [] => ""
  | [x] => x
  | x :: xs => x ++ "\n" ++ joinLines xs

/-- BaseAgent.get_context_restore_message: None when the loaded tail is
empty, otherwise the composed context-restore prompt. -/
def getContextRestore (role : String) (hist : List HEntry) : Option String :=
  let h := loadHistoryTail hist 15
  if h = [] then none
  else some (joinLines (
    ["[HIVEMIND CONTEXT RESTORE - " ++ role ++ "]",
     "Previous session ended at " ++
       (match h.getLast? with
        | some e => e.timestamp
        | none => "unknown"),
     "Recent conversation summary:"]
    ++ h.filterMap (fun e =>
         if pyTruncate e.content 200 = "" then none
         else some ("- " ++ e.role ++ ": " ++ pyTruncate e.content 200 ++ "..."))
    ++ ["[END CONTEXT - Continue from where we left off]"]))

-- =========================================================================
-- ClaudeAgent connect / send (hivemind-sdk-v2.py lines 496-635): the
-- context-restore preamble state machine.  connect stores the restore
-- prompt in _pending_context; send sanitizes the message, prepends a truthy
-- pending preamble (clearing it), and passes the preamble-free sanitized
-- message to _save_to_history("user", ...).
-- =========================================================================

/-- The delimiter send() puts between the preamble and the user message. -/
def contextSep : String := "\n\n---\n\nUser's current message:\n"

/-- What one ClaudeAgent.send does to the message pipeline: the string
handed to client.query, the content argument of the user-side
_save_to_history call, and the _pending_context left behind.  `none` for
the first two models the not-connected early return (nothing transmitted,
nothing saved). -/
structure ClaudeSendRes where
  transmitted : Option String
  historyArg : Option String
  pending : Option String
  deriving DecidableEq

/-- ClaudeAgent.send up to the query: sanitize, inject a truthy pending
context (clearing it atomically), save the user message without the
preamble.  A falsy pending value (None, or "" which connect never stores)
is neither injected nor cleared, exactly as `if self._pending_context:`. -/
def claudeSendStep (connected : Bool) (pending : Option String)
    (message : String) : ClaudeSendRes :=
  if !connected then ⟨none, none, pending⟩
  else
    let cleanMessage := sanitize_unicode_str message
    match pending with
    | some p =>
      if p != "" then
        ⟨some (p ++ contextSep ++ cleanMessage), some (sanitize_unicode_str message), none⟩
      else
        ⟨some cleanMessage, some (sanitize_unicode_str message), some p⟩
    | none => ⟨some cleanMessage, some (sanitize_unicode_str message), none⟩

/-- The _pending_context ClaudeAgent.connect leaves behind: the context
restore message when history exists, otherwise none. -/
def claudeConnectPending (role : String) (hist : List HEntry) : Option String :=
  getContextRestore role hist

-- =========================================================================
-- Session store (HivemindManager._load_sessions / _save_sessions,
-- hivemind-sdk-v2.py lines 1579-1605).  The file state is `none` when the
-- file does not exist and `some j` when it holds the JSON value j.
-- =========================================================================

/-- The sessions dict as the JSON object json.dump writes for it. -/
def embedSessions (sessions : List (String × String)) : J :=
  J.obj (sessions.map fun p => (p.1, J.str p.2))

/-- Python dict assignment d[k] = v on an association list with unique keys:
replace the first binding of k, else append. -/
def setKey : List (String × J) → String → J → List (String × J)
  | [], k, v => [(k, v)]
  | (k', v') :: rest, k, v =>
    if k' = k then (k, v) :: rest else (k', v') :: setKey rest k v

/-- _load_sessions: data.get("sdk_sessions", {}) when the file holds a JSON
object; {} when the file is missing, or data is not a dict (the .get call
raises AttributeError, which the except clause turns into a warning). -/
def load_sessions : Option J → J
  | some (J.obj kvs) => (lookupKV kvs "sdk_sessions").getD (J.obj [])
  | _ => J.obj []

/-- _save_sessions: read-modify-write.  A missing file gives existing = {};
a JSON-object file is updated in place; any other JSON value makes
existing["sdk_sessions"] = sessions raise TypeError, which the except
clause swallows before the write, leaving the file unchanged. -/
def save_sessions : Option J → List (String × String) → Option J
  | none, sessions => some (J.obj [("sdk_sessions", embedSessions sessions)])
  | some (J.obj kvs), sessions =>
    some (J.obj (setKey kvs "sdk_sessions" (embedSessions sessions)))
  | some j, _ => some j

/-- Top-level key lookup in the file state (none when the file is missing or
not a JSON object). -/
def topGet : Option J → String → Option J
  | some (J.obj kvs), k => lookupKV kvs k
  | _, _ => none

/-- The file states _save_sessions can write through: missing or a dict. -/
def isDictFile : Option J → Bool
  | none => true
  | some (J.obj _) => true
  | some _ => false

-- =========================================================================
-- Disconnects (ClaudeAgent.disconnect lines 776-798, CodexAgent.disconnect
-- lines 1097-1107, GeminiAgent.disconnect lines 1307-1320).  Wall-clock
-- seconds are Nat; shutdownTime is how long the client/subprocess would
-- take to finish, and asyncio.wait_for(op, timeout=T) returns after
-- min(shutdownTime, T) whether or not op finished.
-- =========================================================================

/-- Result of a disconnect: seconds spent waiting, the states of the
status events emitted, and the returned session token. -/
structure DisconnectRes where
  waited : Nat
  statusStates : List String
  returned : Option String
  deriving DecidableEq

/-- ClaudeAgent.disconnect: only a connected client is awaited, with
asyncio.wait_for(client.disconnect(), timeout=2.0); timeout, cancellation
and other errors are swallowed; status{disconnected} is emitted inside the
guard; session_id is always returned. -/
def claudeDisconnect (hasClient connected : Bool) (sessionId : Option String)
    (shutdownTime : Nat) : DisconnectRes :=
  if hasClient && connected then
    ⟨min shutdownTime 2, ["disconnected"], sessionId⟩
  else
    ⟨0, [], sessionId⟩

/-- CodexAgent.disconnect: terminate() without awaiting the process, then
emit status{disconnected} and return the thread id. -/
def codexDisconnect (threadId : Option String) : DisconnectRes :=
  ⟨0, ["disconnected"], threadId⟩

/-- GeminiAgent.disconnect: when a subprocess handle exists, terminate and
asyncio.wait_for(process.wait(), timeout=5.0) (kill on timeout); then emit
status{disconnected} and return the session index. -/
def geminiDisconnect (hasProcess : Bool) (sessionIndex : Option String)
    (shutdownTime : Nat) : DisconnectRes :=
  if hasProcess then
    ⟨min shutdownTime 5, ["disconnected"], sessionIndex⟩
  else
    ⟨0, ["disconnected"], sessionIndex⟩

-- =========================================================================
-- IPC dispatcher, send command (run_ipc_server, hivemind-sdk-v2.py lines
-- 1692-1702): `if pane_id and message:` spawn a send_message task, else
-- emit error{send requires pane_id and message}.
-- =========================================================================

/-- What the dispatcher does with a parsed send command. -/
inductive SendDispatch where
  | spawned (paneId message : J) : SendDispatch
  | rejected (errMessage : String) : SendDispatch

/-- The send branch of run_ipc_server's command dispatch. -/
def dispatchSendCmd (cmd : J) : SendDispatch :=
  let paneId := jGet cmd "pane_id"
  let message := jGet cmd "message"
  if truthyOpt paneId && truthyOpt message then
    SendDispatch.spawned (paneId.getD J.null) (message.getD J.null)
  else
    SendDispatch.rejected "send requires pane_id and message"

-- =========================================================================
-- CodexAgent.send and _parse_codex_event (hivemind-sdk-v2.py lines
-- 842-1079).  The subprocess is abstracted as its observable outcome:
-- parsed stdout lines (none = a line json.loads rejects, which Codex logs
-- and skips), the exit code, and stderr.  Events the turn prints are
-- collected in order: _emit output (with pane_id/role) and yielded dicts
-- (the manager adds pane_id before printing) in one list of J objects.
-- =========================================================================

/-- Subprocess outcome for one CLI turn. -/
structure ProcOutcome where
  lines : List (Option J)
  exitCode : Int
  stderr : String

/-- A yielded error dict. -/
def evErrorS (m : String) : J :=
  J.obj [("type", J.str "error"), ("message", J.str m)]

/-- BaseAgent._emit: the printed object with pane_id and role merged in. -/
def emitEv (pane role ty : String) (fields : List (String × J)) : J :=
  J.obj ([("type", J.str ty), ("pane_id", J.str pane), ("role", J.str role)]
    ++ fields)

/-- dict.get(k) as Python sees it: missing key and JSON null both give
Python None. -/
def jGetOpt (ev : J) (k : String) : Option J :=
  match jGet ev k with
  | some J.null => none
  | o => o

/-- Python `value != 0` (no exception on any type; bool is an int). -/
def jNeZero : J → Bool
  | J.num n => n != 0
  | J.bool b => b
  | _ => true

/-- Python str(value) for f-string interpolation (container reprs are
abstracted; the claims never inspect them). -/
def pyStr : J → String
  | J.str s => s
  | J.null => "None"
  | J.bool true => "True"
  | J.bool false => "False"
  | J.num n => toString n
  | J.arr _ => "[…]"
  | J.obj _ => "\x7b…\x7d"

/-- CodexAgent._parse_codex_event plus its one side effect (assigning
self.thread_id on thread.started).  Returns the optional dict to yield and
the new thread id; `Except.error` is an AttributeError from calling .get on
a non-dict (the event itself, usage, or item), which the caller's
`except Exception` turns into an error event that ends the turn. -/
def parseCodexEvent (tid : Option J) (ev : J) :
    Except String (Option J × Option J) :=
  match ev with
  | J.obj _ =>
    if jStrField ev "type" = some "thread.started" then
      let tid' := jGetOpt ev "thread_id"
      Except.ok (some (J.obj [("type", J.str "status"),
        ("state", J.str "thread_started"),
        ("thread_id", tid'.getD J.null)]), tid')
    else if jStrField ev "type" = some "turn.started" then
      Except.ok (some (J.obj [("type", J.str "status"),
        ("state", J.str "turn_started")]), tid)
    else if jStrField ev "type" = some "turn.completed" then
      match (jGet ev "usage").getD (J.obj []) with
      | J.obj u =>
        Except.ok (some (J.obj [("type", J.str "status"),
          ("state", J.str "turn_completed"),
          ("input_tokens", (lookupKV u "input_tokens").getD J.null),
          ("output_tokens", (lookupKV u "output_tokens").getD J.null)]), tid)
      | _ => Except.error "AttributeError"
    else if jStrField ev "type" = some "turn.failed" then
      Except.ok (some (J.obj [("type", J.str "error"),
        ("message", (jGet ev "error").getD (J.str "Turn failed"))]), tid)
    else if jStrField ev "type" = some "item.started" then
      match (jGet ev "item").getD (J.obj []) with
      | J.obj i =>
        let item := J.obj i
        if jStrField item "type" = some "reasoning" then
          Except.ok (some (J.obj [("type", J.str "thinking_delta"),
            ("thinking", J.str "Reasoning...")]), tid)
        else if jStrField item "type" = some "command_execution" then
          Except.ok (some (J.obj [("type", J.str "tool_use"),
            ("name", J.str "Bash"),
            ("input", J.obj [("command", (jGet item "command").getD (J.str ""))])]),
            tid)
        else if jStrField item "type" = some "file_change" then
          Except.ok (some (J.obj [("type", J.str "tool_use"),
            ("name", J.str "Edit"),
            ("input", J.obj [("file_path", (jGet item "file_path").getD (J.str ""))])]),
            tid)
        else if jStrField item "type" = some "mcp_tool_call" then
          Except.ok (some (J.obj [("type", J.str "tool_use"),
            ("name", (jGet item "tool_name").getD (J.str "unknown")),
            ("input", (jGet item "arguments").getD (J.obj []))]), tid)
        else if jStrField item "type" = some "web_search" then
          Except.ok (some (J.obj [("type", J.str "tool_use"),
            ("name", J.str "WebSearch"),
            ("input", J.obj [("query", (jGet item "query").getD (J.str ""))])]),
            tid)
        else if jStrField item "type" = some "plan_update" then
          Except.ok (some (J.obj [("type", J.str "thinking_delta"),
            ("thinking", J.str "Updating plan...")]), tid)
        else Except.ok (none, tid)
      | _ => Except.error "AttributeError"
    else if jStrField ev "type" = some "item.completed" then
      match (jGet ev "item").getD (J.obj []) with
      | J.obj i =>
        let item := J.obj i
        if jStrField item "type" = some "agent_message" then
          let content := (jGet item "content").getD (J.str "")
          if jTruthy content then
            Except.ok (some (J.obj [("type", J.str "text_delta"),
              ("text", content)]), tid)
          else Except.ok (none, tid)
        else if jStrField item "type" = some "reasoning" then
          let rc := (jGet item "content").getD (J.str "")
          if jTruthy rc then
            Except.ok (some (J.obj [("type", J.str "thinking_delta"),
              ("thinking", rc)]), tid)
          else Except.ok (none, tid)
        else if jStrField item "type" = some "command_execution" then
          Except.ok (some (J.obj [("type", J.str "tool_result"),
            ("content", (jGet item "output").getD (J.str "")),
            ("is_error", J.bool (jNeZero ((jGet item "exit_code").getD (J.num 0))))]),
            tid)
        else if jStrField item "type" = some "file_change" then
          Except.ok (some (J.obj [("type", J.str "tool_result"),
            ("content", J.str ("File changed: " ++
              pyStr ((jGet item "file_path").getD (J.str "unknown")))),
            ("is_error", J.bool false)]), tid)
        else Except.ok (none, tid)
      | _ => Except.error "AttributeError"
    else Except.ok (none, tid)
  | _ => Except.error "AttributeError"

/-- The observable result of the stdout line loop. -/
structure LineRun where
  events : List J
  threadId : Option J
  acc : String
  ok : Bool

/-- The `async for line in stdout` loop of CodexAgent.send: skip
non-JSON lines, parse each event, accumulate yielded text_delta text into
response_text (a non-string truthy text value makes `response_text +=`
raise TypeError), yield parsed dicts.  An exception ends the loop with
ok = false after the outer except yields its error event. -/
def codexLines (tid : Option J) (acc : String) :
    List (Option J) → LineRun
  | [] => ⟨[], tid, acc, true⟩
  | none :: rest => codexLines tid acc rest
  | some ev :: rest =>
    match parseCodexEvent tid ev with
    | Except.error e =>
      ⟨[evErrorS ("Codex error: " ++ e)], tid, acc, false⟩
    | Except.ok (none, tid') => codexLines tid' acc rest
    | Except.ok (some parsed, tid') =>
      if jStrField parsed "type" = some "text_delta" then
        match jGet parsed "text" with
        | some (J.str s) =>
          let r := codexLines tid' (acc ++ s) rest
          ⟨parsed :: r.events, r.threadId, r.acc, r.ok⟩
        | _ => ⟨[evErrorS "Codex error: TypeError"], tid', acc, false⟩
      else
        let r := codexLines tid' acc rest
        ⟨parsed :: r.events, r.threadId, r.acc, r.ok⟩

/-- The observable result of one CodexAgent.send turn. -/
structure CodexTurn where
  events : List J
  threadId : Option J
  hist : List HEntry

/-- CodexAgent.send.  codexOnPath is shutil.which("codex") succeeding;
spawnOk is create_subprocess not raising FileNotFoundError; ioFail feeds
the _save_to_history calls.  The turn runs uninterrupted
(_interrupt_requested is cleared on entry and nothing in a pure turn sets
it). -/
def codexSend (pane role : String) (connected : Bool) (tid : Option J)
    (hist : List HEntry) (message ts : String)
    (codexOnPath spawnOk ioFail : Bool) (proc : ProcOutcome) : CodexTurn :=
  if !connected then ⟨[evErrorS "Codex agent not connected"], tid, hist⟩
  else
    let hist1 := saveToHistory hist "user" message ts ioFail
    let thinkingEv := emitEv pane role "status" [("state", J.str "thinking")]
    let idleEv := emitEv pane role "status" [("state", J.str "idle")]
    if !codexOnPath then
      ⟨[thinkingEv,
        evErrorS "Codex CLI not found in PATH. Install with: npm install -g @openai/codex",
        idleEv], tid, hist1⟩
    else if !spawnOk then
      ⟨[thinkingEv,
        evErrorS "Codex CLI not found. Install with: npm install -g @openai/codex",
        idleEv], tid, hist1⟩
    else
      let r := codexLines tid "" proc.lines
      if r.ok then
        let hasError := proc.exitCode != 0 && stripS proc.stderr != ""
        let errEvents :=
          if hasError then
            [evErrorS ("Codex exit code " ++ toString proc.exitCode ++ ": " ++
              proc.stderr)]
          else []
        let hist2 :=
          if stripS r.acc != "" then
            saveToHistory hist1 "assistant" (stripS r.acc) ts ioFail
          else hist1
        let resultEv := J.obj [("type", J.str "result"),
          ("session_id", r.threadId.getD J.null),
          ("is_error", J.bool hasError)]
        ⟨thinkingEv :: r.events ++ errEvents ++ [resultEv, idleEv],
          r.threadId, hist2⟩
      else
        ⟨thinkingEv :: r.events ++ [idleEv], r.threadId, hist1⟩

-- =========================================================================
-- Helper lemmas: Python strip
-- =========================================================================

theorem takeIsPre (n : Nat) (l : List Char) : l.take n <+: l := List.take_prefix n l

theorem rstripL_isPre (l : List Char) : rstripL l <+: l := List.rdropWhile_prefix pyIsSpace l

theorem lstripL_isSuf (l : List Char) : lstripL l <:+ l := List.dropWhile_suffix pyIsSpace

theorem isPre_iff (l₁ l₂ : List Char) : l₁.isPrefixOf l₂ = true ↔ l₁ <+: l₂ :=
  List.isPrefixOf_iff_prefix

theorem isSuf_iff (l₁ l₂ : List Char) : l₁.isSuffixOf l₂ = true ↔ l₁ <:+ l₂ :=
  List.isSuffixOf_iff_suffix

theorem revIsPre_iff (l₁ l₂ : List Char) : l₁.reverse <+: l₂.reverse ↔ l₁ <:+ l₂ :=
  List.reverse_prefix

theorem preToInf (l₁ l₂ : List Char) (h : l₁ <+: l₂) : l₁ <:+: l₂ :=
  List.IsPrefix.isInfix h

theorem sufToInf (l₁ l₂ : List Char) (h : l₁ <:+ l₂) : l₁ <:+: l₂ :=
  List.IsSuffix.isInfix h

theorem lstripL_idem (l : List Char) : lstripL (lstripL l) = lstripL l := by
  unfold lstripL
  exact List.dropWhile_idempotent ..

theorem rstripL_idem (l : List Char) : rstripL (rstripL l) = rstripL l := by
  unfold rstripL
  exact List.rdropWhile_idempotent ..

theorem rstripL_eq_rev (l : List Char) : rstripL l = (lstripL l.reverse).reverse := rfl

theorem noLead_cons (c : Char) (l : List Char) (h : lstripL (c :: l) = c :: l) :
    pyIsSpace c = false := by
  cases hc : pyIsSpace c
  · rfl
  · exfalso
    unfold lstripL at h
    rw [List.dropWhile_cons, if_pos hc] at h
    have h1 : (List.dropWhile pyIsSpace l).length ≤ l.length :=
      (List.dropWhile_suffix pyIsSpace).sublist.length_le
    have h2 := congrArg List.length h
    simp only [List.length_cons] at h2
    omega

theorem noLead_of_isPre (l' l : List Char) (hp : l' <+: l) (h : lstripL l = l) :
    lstripL l' = l' := by
  cases l' with
  | nil => rfl
  | cons c cs =>
    obtain ⟨t, ht⟩ := hp
    have hc : pyIsSpace c = false := by
      apply noLead_cons c (cs ++ t)
      rw [List.cons_append] at ht
      rw [ht]
      exact h
    unfold lstripL
    rw [List.dropWhile_cons, if_neg (by simp [hc])]

theorem noTrail_of_isSuf (l' l : List Char) (hs : l' <:+ l) (h : rstripL l = l) :
    rstripL l' = l' := by
  have h' : lstripL l.reverse = l.reverse := by
    have h2 := congrArg List.reverse h
    rw [rstripL_eq_rev] at h2
    simpa using h2
  have hp : l'.reverse <+: l.reverse := (revIsPre_iff l' l).mpr hs
  have hres := noLead_of_isPre _ _ hp h'
  rw [rstripL_eq_rev, hres, List.reverse_reverse]

-- =========================================================================
-- Helper lemmas: marker passes and loops (start side)
-- =========================================================================

theorem roleMarkers_ne_nil : ∀ m ∈ roleMarkers, m ≠ [] := by decide

theorem spp_sufOf (ms : List (List Char)) (r : List Char) :
    (stripPrefixPass ms r).1 <:+ r := by
  induction ms generalizing r with
  | nil => exact List.suffix_refl r
  | cons m ms ih =>
    cases hm : m.isPrefixOf r with
    | true =>
      simp only [stripPrefixPass, hm, if_true]
      exact (ih _).trans ((lstripL_isSuf _).trans (List.drop_suffix _ _))
    | false =>
      simp only [stripPrefixPass, hm]
      simpa using ih r

theorem spp_len_le (ms : List (List Char)) (r : List Char) :
    (stripPrefixPass ms r).1.length ≤ r.length :=
  (spp_sufOf ms r).sublist.length_le

theorem spp_len_lt (ms : List (List Char)) (r : List Char)
    (hms : ∀ m ∈ ms, m ≠ []) (hch : (stripPrefixPass ms r).2 = true) :
    (stripPrefixPass ms r).1.length < r.length := by
  induction ms generalizing r with
  | nil => simp [stripPrefixPass] at hch
  | cons m ms ih =>
    cases hm : m.isPrefixOf r with
    | true =>
      have hmr : m <+: r := (isPre_iff m r).mp hm
      have hm1 : 1 ≤ m.length := by
        have hne : m ≠ [] := hms m (by simp)
        cases m with
        | nil => simp at hne
        | cons a as => simp
      have hrlen : m.length ≤ r.length := hmr.length_le
      have h1 : (stripPrefixPass ms (lstripL (r.drop m.length))).1.length
          ≤ (lstripL (r.drop m.length)).length := spp_len_le ..
      have h2 : (lstripL (r.drop m.length)).length ≤ (r.drop m.length).length :=
        (lstripL_isSuf _).sublist.length_le
      have h3 : (r.drop m.length).length = r.length - m.length := List.length_drop ..
      simp only [stripPrefixPass, hm, if_true]
      omega
    | false =>
      simp only [stripPrefixPass, hm, Bool.false_eq_true, if_false] at hch ⊢
      exact ih r (fun x hx => hms x (by simp [hx])) hch

theorem spp_false_iff (ms : List (List Char)) (r : List Char) :
    (stripPrefixPass ms r).2 = false ↔ ∀ m ∈ ms, m.isPrefixOf r = false := by
  induction ms generalizing r with
  | nil => simp [stripPrefixPass]
  | cons m ms ih =>
    cases hm : m.isPrefixOf r with
    | true => simp [stripPrefixPass, hm]
    | false => simp [stripPrefixPass, hm, ih]

theorem spp_noLead (ms : List (List Char)) (r : List Char)
    (h : lstripL r = r) :
    lstripL (stripPrefixPass ms r).1 = (stripPrefixPass ms r).1 := by
  induction ms generalizing r with
  | nil => simpa [stripPrefixPass]
  | cons m ms ih =>
    cases hm : m.isPrefixOf r with
    | true =>
      simp only [stripPrefixPass, hm, if_true]
      exact ih _ (lstripL_idem _)
    | false =>
      simp only [stripPrefixPass, hm, if_false]
      exact ih r h

theorem spl_sufOf (fuel : Nat) (r : List Char) : stripPrefixLoop fuel r <:+ r := by
  induction fuel generalizing r with
  | zero => exact List.suffix_refl r
  | succ f ih =>
    cases hch : (stripPrefixPass roleMarkers r).2 with
    | true =>
      simp only [stripPrefixLoop, hch, if_true]
      exact (ih _).trans (spp_sufOf ..)
    | false =>
      simp only [stripPrefixLoop, hch, if_false]
      exact List.suffix_refl r

theorem spl_fix (fuel : Nat) (r : List Char) (hf : r.length < fuel) :
    ∀ m ∈ roleMarkers, m.isPrefixOf (stripPrefixLoop fuel r) = false := by
  induction fuel generalizing r with
  | zero => omega
  | succ f ih =>
    cases hch : (stripPrefixPass roleMarkers r).2 with
    | true =>
      intro m hm
      simp only [stripPrefixLoop, hch, if_true]
      have hlt := spp_len_lt roleMarkers r roleMarkers_ne_nil hch
      exact ih _ (by omega) m hm
    | false =>
      intro m hm
      simp only [stripPrefixLoop, hch, if_false]
      exact (spp_false_iff _ _).mp hch m hm

theorem spl_noLead (fuel : Nat) (r : List Char) (h : lstripL r = r) :
    lstripL (stripPrefixLoop fuel r) = stripPrefixLoop fuel r := by
  induction fuel generalizing r with
  | zero => simpa [stripPrefixLoop]
  | succ f ih =>
    cases hch : (stripPrefixPass roleMarkers r).2 with
    | true =>
      simp only [stripPrefixLoop, hch, if_true]
      exact ih _ (spp_noLead _ _ h)
    | false =>
      simpa only [stripPrefixLoop, hch, if_false] using h

-- =========================================================================
-- Helper lemmas: marker passes and loops (end side)
-- =========================================================================

theorem sps_preOf (ms : List (List Char)) (r : List Char) :
    (stripSuffixPass ms r).1 <+: r := by
  induction ms generalizing r with
  | nil => exact List.prefix_refl r
  | cons m ms ih =>
    cases hm : m.isSuffixOf r with
    | true =>
      simp only [stripSuffixPass, hm, if_true]
      exact (ih _).trans ((rstripL_isPre _).trans (takeIsPre _ _))
    | false =>
      simp only [stripSuffixPass, hm]
      simpa using ih r

theorem sps_len_le (ms : List (List Char)) (r : List Char) :
    (stripSuffixPass ms r).1.length ≤ r.length :=
  (sps_preOf ms r).length_le

theorem sps_len_lt (ms : List (List Char)) (r : List Char)
    (hms : ∀ m ∈ ms, m ≠ []) (hch : (stripSuffixPass ms r).2 = true) :
    (stripSuffixPass ms r).1.length < r.length := by
  induction ms generalizing r with
  | nil => simp [stripSuffixPass] at hch
  | cons m ms ih =>
    cases hm : m.isSuffixOf r with
    | true =>
      have hmr : m <:+ r := (isSuf_iff m r).mp hm
      have hm1 : 1 ≤ m.length := by
        have hne : m ≠ [] := hms m (by simp)
        cases m with
        | nil => simp at hne
        | cons a as => simp
      have hrlen : m.length ≤ r.length := hmr.sublist.length_le
      have h1 : (stripSuffixPass ms (rstripL (r.take (r.length - m.length)))).1.length
          ≤ (rstripL (r.take (r.length - m.length))).length := sps_len_le ..
      have h2 : (rstripL (r.take (r.length - m.length))).length
          ≤ (r.take (r.length - m.length)).length :=
        (rstripL_isPre _).length_le
      have h3 : (r.take (r.length - m.length)).length
          = min (r.length - m.length) r.length := List.length_take ..
      simp only [stripSuffixPass, hm, if_true]
      omega
    | false =>
      simp only [stripSuffixPass, hm, Bool.false_eq_true, if_false] at hch ⊢
      exact ih r (fun x hx => hms x (by simp [hx])) hch

theorem sps_false_iff (ms : List (List Char)) (r : List Char) :
    (stripSuffixPass ms r).2 = false ↔ ∀ m ∈ ms, m.isSuffixOf r = false := by
  induction ms generalizing r with
  | nil => simp [stripSuffixPass]
  | cons m ms ih =>
    cases hm : m.isSuffixOf r with
    | true => simp [stripSuffixPass, hm]
    | false => simp [stripSuffixPass, hm, ih]

theorem sps_noTrail (ms : List (List Char)) (r : List Char)
    (h : rstripL r = r) :
    rstripL (stripSuffixPass ms r).1 = (stripSuffixPass ms r).1 := by
  induction ms generalizing r with
  | nil => simpa [stripSuffixPass]
  | cons m ms ih =>
    cases hm : m.isSuffixOf r with
    | true =>
      simp only [stripSuffixPass, hm, if_true]
      exact ih _ (rstripL_idem _)
    | false =>
      simp only [stripSuffixPass, hm, if_false]
      exact ih r h

theorem ssl_preOf (fuel : Nat) (r : List Char) : stripSuffixLoop fuel r <+: r := by
  induction fuel generalizing r with
  | zero => exact List.prefix_refl r
  | succ f ih =>
    cases hch : (stripSuffixPass roleMarkers r).2 with
    | true =>
      simp only [stripSuffixLoop, hch, if_true]
      exact (ih _).trans (sps_preOf ..)
    | false =>
      simp only [stripSuffixLoop, hch, if_false]
      exact List.prefix_refl r

theorem ssl_fix (fuel : Nat) (r : List Char) (hf : r.length < fuel) :
    ∀ m ∈ roleMarkers, m.isSuffixOf (stripSuffixLoop fuel r) = false := by
  induction fuel generalizing r with
  | zero => omega
  | succ f ih =>
    cases hch : (stripSuffixPass roleMarkers r).2 with
    | true =>
      intro m hm
      simp only [stripSuffixLoop, hch, if_true]
      have hlt := sps_len_lt roleMarkers r roleMarkers_ne_nil hch
      exact ih _ (by omega) m hm
    | false =>
      intro m hm
      simp only [stripSuffixLoop, hch, if_false]
      exact (sps_false_iff _ _).mp hch m hm

theorem ssl_noTrail (fuel : Nat) (r : List Char) (h : rstripL r = r) :
    rstripL (stripSuffixLoop fuel r) = stripSuffixLoop fuel r := by
  induction fuel generalizing r with
  | zero => simpa [stripSuffixLoop]
  | succ f ih =>
    cases hch : (stripSuffixPass roleMarkers r).2 with
    | true =>
      simp only [stripSuffixLoop, hch, if_true]
      exact ih _ (sps_noTrail _ _ h)
    | false =>
      simpa only [stripSuffixLoop, hch, if_false] using h

-- =========================================================================
-- Helper lemmas: cleanCore as a whole
-- =========================================================================

theorem cleanCore_eq (t : List Char) (ht : t ≠ []) :
    cleanCore t =
      stripSuffixLoop
        ((stripPrefixLoop ((stripL t).length + 1) (stripL t)).length + 1)
        (stripPrefixLoop ((stripL t).length + 1) (stripL t)) := by
  simp [cleanCore, ht]

theorem cleanCore_noLead (t : List Char) : lstripL (cleanCore t) = cleanCore t := by
  by_cases ht : t = []
  · simp [cleanCore, ht, lstripL]
  · rw [cleanCore_eq t ht]
    have h0 : lstripL (stripL t) = stripL t :=
      noLead_of_isPre _ _ (rstripL_isPre _) (lstripL_idem t)
    have h1 := spl_noLead ((stripL t).length + 1) (stripL t) h0
    exact noLead_of_isPre _ _ (ssl_preOf _ _) h1

theorem cleanCore_noTrail (t : List Char) : rstripL (cleanCore t) = cleanCore t := by
  by_cases ht : t = []
  · simp [cleanCore, ht, rstripL, List.rdropWhile]
  · rw [cleanCore_eq t ht]
    have h0 : rstripL (stripL t) = stripL t := rstripL_idem _
    have h1 : rstripL (stripPrefixLoop ((stripL t).length + 1) (stripL t))
        = stripPrefixLoop ((stripL t).length + 1) (stripL t) :=
      noTrail_of_isSuf _ _ (spl_sufOf _ _) h0
    exact ssl_noTrail _ _ h1

theorem cleanCore_noMarkerPre (t : List Char) :
    ∀ m ∈ roleMarkers, m.isPrefixOf (cleanCore t) = false := by
  by_cases ht : t = []
  · intro m hm
    simp only [cleanCore, ht, if_pos]
    revert m hm
    decide
  · rw [cleanCore_eq t ht]
    intro m hm
    have h1 := spl_fix ((stripL t).length + 1) (stripL t) (by omega) m hm
    cases hres : m.isPrefixOf (stripSuffixLoop
        ((stripPrefixLoop ((stripL t).length + 1) (stripL t)).length + 1)
        (stripPrefixLoop ((stripL t).length + 1) (stripL t))) with
    | false => rfl
    | true =>
      exfalso
      have hp : m <+: stripPrefixLoop ((stripL t).length + 1) (stripL t) :=
        ((isPre_iff ..).mp hres).trans (ssl_preOf _ _)
      rw [(isPre_iff ..).mpr hp] at h1
      exact Bool.true_eq_false.mp h1

theorem cleanCore_noMarkerSuf (t : List Char) :
    ∀ m ∈ roleMarkers, m.isSuffixOf (cleanCore t) = false := by
  by_cases ht : t = []
  · intro m hm
    simp only [cleanCore, ht, if_pos]
    revert m hm
    decide
  · rw [cleanCore_eq t ht]
    exact ssl_fix _ _ (by omega)

theorem cleanCore_isInf (t : List Char) : cleanCore t <:+: t := by
  by_cases ht : t = []
  · simp [cleanCore, ht]
  · rw [cleanCore_eq t ht]
    have h1 : stripL t <:+: t :=
      (preToInf _ _ (rstripL_isPre _)).trans (sufToInf _ _ (lstripL_isSuf _))
    have h2 : stripPrefixLoop ((stripL t).length + 1) (stripL t) <:+: stripL t :=
      sufToInf _ _ (spl_sufOf _ _)
    have h3 := preToInf _ _ (ssl_preOf
      ((stripPrefixLoop ((stripL t).length + 1) (stripL t)).length + 1)
      (stripPrefixLoop ((stripL t).length + 1) (stripL t)))
    exact h3.trans (h2.trans h1)

theorem cleanCore_fixpoint (r : List Char)
    (h1 : lstripL r = r) (h2 : rstripL r = r)
    (h3 : ∀ m ∈ roleMarkers, m.isPrefixOf r = false)
    (h4 : ∀ m ∈ roleMarkers, m.isSuffixOf r = false) :
    cleanCore r = r := by
  by_cases hr : r = []
  · simp [cleanCore, hr]
  · have hs : stripL r = r := by
      unfold stripL
      rw [h1, h2]
    have hp2 : (stripPrefixPass roleMarkers r).2 = false := (spp_false_iff _ _).mpr h3
    have hq2 : (stripSuffixPass roleMarkers r).2 = false := (sps_false_iff _ _).mpr h4
    have hsl : stripPrefixLoop (r.length + 1) r = r := by
      simp [stripPrefixLoop, hp2]
    have hssl : stripSuffixLoop (r.length + 1) r = r := by
      simp [stripSuffixLoop, hq2]
    rw [cleanCore_eq r hr, hs, hsl, hssl]

theorem cleanCore_idem (t : List Char) : cleanCore (cleanCore t) = cleanCore t :=
  cleanCore_fixpoint (cleanCore t) (cleanCore_noLead t) (cleanCore_noTrail t)
    (cleanCore_noMarkerPre t) (cleanCore_noMarkerSuf t)

-- =========================================================================
-- C3 / C4
-- =========================================================================

/-- C3 (counterexample): the claim says marker stripping is case-insensitive
for any capitalization, e.g. that "hUmAn:" is removed; clean_role_markers
leaves "hUmAn: hi" unchanged, so it does not return "hi". -/
theorem C3_counterexample :
    clean_role_markers "hUmAn: hi" = "hUmAn: hi" ∧
    clean_role_markers "hUmAn: hi" ≠ "hi" := by
  constructor
  · decide
  · decide

/-- C3 (amended): strip_role_markers removes, from the two ends only, the
markers of the fixed case-sensitive list Human:, Assistant:, User:, System:,
HUMAN:, ASSISTANT:, USER:, SYSTEM:, together with surrounding whitespace,
repeating until no marker of that list is a prefix or suffix of the result:
the result is a contiguous infix of the input with no leading or trailing
whitespace and no listed marker as prefix or suffix. -/
theorem C3_marker_strip_amended (s : String) :
    (clean_role_markers s).data <:+: s.data ∧
    lstripL (clean_role_markers s).data = (clean_role_markers s).data ∧
    rstripL (clean_role_markers s).data = (clean_role_markers s).data ∧
    ∀ m ∈ roleMarkers,
      m.isPrefixOf (clean_role_markers s).data = false ∧
      m.isSuffixOf (clean_role_markers s).data = false := by
  refine ⟨cleanCore_isInf s.data, cleanCore_noLead s.data, cleanCore_noTrail s.data,
    fun m hm => ⟨cleanCore_noMarkerPre s.data m hm, cleanCore_noMarkerSuf s.data m hm⟩⟩

/-- C3 witness: the Title-case marker "Human:" is in the list and is not a
prefix of the cleaned "Human: x". -/
theorem C3_witness :
    ("Human:" : String).data ∈ roleMarkers ∧
    ("Human:" : String).data.isPrefixOf (clean_role_markers "Human: x").data = false :=
  ⟨by decide,
   ((C3_marker_strip_amended "Human: x").2.2.2 ("Human:" : String).data (by decide)).1⟩

/-- C4: strip_role_markers is idempotent. -/
theorem C4_strip_idempotent (t : String) :
    clean_role_markers (clean_role_markers t) = clean_role_markers t := by
  unfold clean_role_markers
  rw [show (String.mk (cleanCore t.data)).data = cleanCore t.data from rfl,
    cleanCore_idem]

-- =========================================================================
-- Helper lemmas: the replace-mode UTF-8 decoder never emits a surrogate
-- =========================================================================

theorem isCont_true (b : Nat) (h : isCont b = true) : 0x80 ≤ b ∧ b ≤ 0xBF := by
  unfold isCont at h
  simp only [Bool.and_eq_true, decide_eq_true_eq] at h
  exact h

theorem cont3OK_true (b b2 : Nat) (h : cont3OK b b2 = true) :
    (b = 0xE0 ∧ 0xA0 ≤ b2 ∧ b2 ≤ 0xBF) ∨
    (b = 0xED ∧ 0x80 ≤ b2 ∧ b2 ≤ 0x9F) ∨
    (b ≠ 0xE0 ∧ b ≠ 0xED ∧ 0x80 ≤ b2 ∧ b2 ≤ 0xBF) := by
  unfold cont3OK at h
  by_cases h0 : b = 0xE0
  · rw [if_pos h0] at h
    simp only [Bool.and_eq_true, decide_eq_true_eq] at h
    exact Or.inl ⟨h0, h⟩
  · rw [if_neg h0] at h
    by_cases h1 : b = 0xED
    · rw [if_pos h1] at h
      simp only [Bool.and_eq_true, decide_eq_true_eq] at h
      exact Or.inr (Or.inl ⟨h1, h⟩)
    · rw [if_neg h1] at h
      exact Or.inr (Or.inr ⟨h0, h1, isCont_true b2 h⟩)

theorem cont4OK_true (b b2 : Nat) (h : cont4OK b b2 = true) : 0x80 ≤ b2 := by
  unfold cont4OK at h
  by_cases h0 : b = 0xF0
  · rw [if_pos h0] at h
    simp only [Bool.and_eq_true, decide_eq_true_eq] at h
    omega
  · rw [if_neg h0] at h
    by_cases h1 : b = 0xF4
    · rw [if_pos h1] at h
      simp only [Bool.and_eq_true, decide_eq_true_eq] at h
      omega
    · rw [if_neg h1] at h
      exact (isCont_true b2 h).1

theorem cont4OK_F0 (b2 : Nat) (h : cont4OK 0xF0 b2 = true) : 0x90 ≤ b2 := by
  unfold cont4OK at h
  rw [if_pos rfl] at h
  simp only [Bool.and_eq_true, decide_eq_true_eq] at h
  omega

set_option maxRecDepth 8192 in
theorem decodeLoop_no_surrogate (fuel : Nat) :
    ∀ bs c, c ∈ decodeLoop fuel bs → c < 0xD800 ∨ 0xE000 ≤ c := by
  induction fuel with
  | zero =>
    intro bs c hc
    simp [decodeLoop] at hc
  | succ f ih =>
    intro bs c hc
    match bs with
    | [] => simp [decodeLoop] at hc
    | b :: rest =>
      rw [decodeLoop.eq_def] at hc
      dsimp only at hc
      by_cases h1 : b < 0x80
      · rw [if_pos h1] at hc
        rcases List.mem_cons.mp hc with h | h
        · omega
        · exact ih rest c h
      · rw [if_neg h1] at hc
        by_cases h2 : b < 0xC2
        · rw [if_pos h2] at hc
          rcases List.mem_cons.mp hc with h | h
          · omega
          · exact ih rest c h
        · rw [if_neg h2] at hc
          by_cases h3 : b < 0xE0
          · rw [if_pos h3] at hc
            match rest with
            | [] =>
              simp only [List.mem_singleton] at hc
              omega
            | b2 :: r2 =>
              cases hb2 : isCont b2 with
              | true =>
                simp only [hb2, if_true, List.mem_cons] at hc
                rcases hc with h | h
                · have := isCont_true b2 hb2
                  omega
                · exact ih r2 c h
              | false =>
                simp only [hb2, Bool.false_eq_true, if_false, List.mem_cons] at hc
                rcases hc with h | h
                · omega
                · exact ih (b2 :: r2) c h
          · rw [if_neg h3] at hc
            by_cases h4 : b < 0xF0
            · rw [if_pos h4] at hc
              match rest with
              | [] =>
                simp only [List.mem_singleton] at hc
                omega
              | b2 :: r2 =>
                cases hb2 : cont3OK b b2 with
                | true =>
                  simp only [hb2, if_true] at hc
                  match r2 with
                  | [] =>
                    simp only [List.mem_singleton] at hc
                    omega
                  | b3 :: r3 =>
                    cases hb3 : isCont b3 with
                    | true =>
                      simp only [hb3, if_true, List.mem_cons] at hc
                      rcases hc with h | h
                      · have hc3 := cont3OK_true b b2 hb2
                        have hc4 := isCont_true b3 hb3
                        rcases hc3 with ⟨he, hr⟩ | ⟨he, hr⟩ | ⟨hne, hne2, hr⟩ <;>
                          subst h <;> omega
                      · exact ih r3 c h
                    | false =>
                      simp only [hb3, Bool.false_eq_true, if_false, List.mem_cons] at hc
                      rcases hc with h | h
                      · omega
                      · exact ih (b3 :: r3) c h
                | false =>
                  simp only [hb2, Bool.false_eq_true, if_false, List.mem_cons] at hc
                  rcases hc with h | h
                  · omega
                  · exact ih (b2 :: r2) c h
            · rw [if_neg h4] at hc
              by_cases h5 : b < 0xF5
              · rw [if_pos h5] at hc
                match rest with
                | [] =>
                  simp only [List.mem_singleton] at hc
                  omega
                | b2 :: r2 =>
                  cases hb2 : cont4OK b b2 with
                  | true =>
                    simp only [hb2, if_true] at hc
                    match r2 with
                    | [] =>
                      simp only [List.mem_singleton] at hc
                      omega
                    | b3 :: r3 =>
                      cases hb3 : isCont b3 with
                      | true =>
                        simp only [hb3, if_true] at hc
                        match r3 with
                        | [] =>
                          simp only [List.mem_singleton] at hc
                          omega
                        | b4 :: r4 =>
                          cases hb4 : isCont b4 with
                          | true =>
                            simp only [hb4, if_true, List.mem_cons] at hc
                            rcases hc with h | h
                            · by_cases hf0 : b = 0xF0
                              · have h90 := cont4OK_F0 b2 (hf0 ▸ hb2)
                                subst h
                                subst hf0
                                omega
                              · have h80 := cont4OK_true b b2 hb2
                                subst h
                                omega
                            · exact ih r4 c h
                          | false =>
                            simp only [hb4, Bool.false_eq_true, if_false,
                              List.mem_cons] at hc
                            rcases hc with h | h
                            · omega
                            · exact ih (b4 :: r4) c h
                      | false =>
                        simp only [hb3, Bool.false_eq_true, if_false,
                          List.mem_cons] at hc
                        rcases hc with h | h
                        · omega
                        · exact ih (b3 :: r3) c h
                  | false =>
                    simp only [hb2, Bool.false_eq_true, if_false,
                      List.mem_cons] at hc
                    rcases hc with h | h
                    · omega
                    · exact ih (b2 :: r2) c h
              · rw [if_neg h5] at hc
                rcases List.mem_cons.mp hc with h | h
                · omega
                · exact ih rest c h

-- =========================================================================
-- C5
-- =========================================================================

/-- C5: sanitize_text never returns a code point in the surrogate range
[U+D800, U+DFFF] (every output code point is below 0xD800 or at least
0xE000), and sanitize_text of the empty string is the empty string.  The
function is a total Lean function on arbitrary code-point sequences, which
carries the pure/total part of the claim. -/
theorem C5_sanitize_no_surrogates (t : List Nat) :
    (∀ c ∈ sanitize_unicode t, c < 0xD800 ∨ 0xE000 ≤ c) ∧
    sanitize_unicode [] = [] := by
  refine ⟨fun c hc => ?_, rfl⟩
  unfold sanitize_unicode at hc
  by_cases ht : t = []
  · rw [if_pos ht] at hc
    rw [ht] at hc
    simp at hc
  · rw [if_neg ht] at hc
    exact decodeLoop_no_surrogate _ _ c hc

/-- C5 witness: on [0x41, 0xD800] the lone surrogate becomes replacement
characters and the theorem applies to one of them. -/
theorem C5_witness :
    0xFFFD ∈ sanitize_unicode [0x41, 0xD800] ∧
    (0xFFFD < 0xD800 ∨ 0xE000 ≤ (0xFFFD : Nat)) :=
  ⟨by decide, (C5_sanitize_no_surrogates [0x41, 0xD800]).1 0xFFFD (by decide)⟩

-- =========================================================================
-- Helper lemmas: session store
-- =========================================================================

theorem lookup_setKey_self (kvs : List (String × J)) (k : String) (v : J) :
    lookupKV (setKey kvs k v) k = some v := by
  induction kvs with
  | nil => simp [setKey, lookupKV]
  | cons p rest ih =>
    by_cases hk : p.1 = k
    · simp [setKey, hk, lookupKV]
    · simp [setKey, hk, lookupKV, ih]

theorem lookup_setKey_other (kvs : List (String × J)) (k k' : String) (v : J)
    (h : k' ≠ k) :
    lookupKV (setKey kvs k v) k' = lookupKV kvs k' := by
  induction kvs with
  | nil =>
    simp only [setKey, lookupKV]
    rw [if_neg (fun he => h he.symm)]
  | cons p rest ih =>
    obtain ⟨pk, pv⟩ := p
    by_cases hk : pk = k
    · subst hk
      simp only [setKey, if_pos rfl, lookupKV]
      rw [if_neg (fun he => h he.symm), if_neg (fun he => h he.symm)]
    · simp only [setKey, if_neg hk, lookupKV]
      by_cases hk' : pk = k'
      · simp [hk']
      · simp [hk', ih]

-- =========================================================================
-- C1
-- =========================================================================

/-- C1 (counterexample): with pre-existing JSON content [] (a JSON array,
not an object), Save({"1": "tok"}) hits a TypeError that the except clause
swallows before writing, so the file keeps the array and the following
Load() returns the empty map, not the saved sessions. -/
theorem C1_counterexample :
    load_sessions (save_sessions (some (J.arr [])) [("1", "tok")]) = J.obj [] ∧
    J.obj [] ≠ embedSessions [("1", "tok")] := by
  refine ⟨rfl, ?_⟩
  simp [embedSessions]

/-- C1 (amended): for every sessions map S and every pre-existing state of
the session file that is missing or holds a JSON object, after Save(S) a
Load() returns exactly S, and every top-level key other than sdk_sessions
keeps the value it had before the Save. -/
theorem C1_session_roundtrip_amended (f : Option J) (S : List (String × String))
    (hf : isDictFile f = true) :
    load_sessions (save_sessions f S) = embedSessions S ∧
    ∀ k, k ≠ "sdk_sessions" → topGet (save_sessions f S) k = topGet f k := by
  match f with
  | none =>
    refine ⟨by simp [save_sessions, load_sessions, lookupKV], fun k hk => ?_⟩
    simp only [save_sessions, topGet, lookupKV]
    rw [if_neg (fun he => hk he.symm)]
  | some (J.obj kvs) =>
    refine ⟨by simp [save_sessions, load_sessions, lookup_setKey_self], fun k hk => ?_⟩
    simp only [save_sessions, topGet]
    exact lookup_setKey_other kvs "sdk_sessions" k (embedSessions S) hk
  | some J.null => simp [isDictFile] at hf
  | some (J.bool b) => simp [isDictFile] at hf
  | some (J.num n) => simp [isDictFile] at hf
  | some (J.str s) => simp [isDictFile] at hf
  | some (J.arr xs) => simp [isDictFile] at hf

/-- C1 witness: a concrete dict file with one unrelated key round-trips and
keeps that key. -/
theorem C1_witness :
    load_sessions (save_sessions (some (J.obj [("other", J.num 7)])) [("1", "s")])
      = embedSessions [("1", "s")] ∧
    topGet (save_sessions (some (J.obj [("other", J.num 7)])) [("1", "s")]) "other"
      = topGet (some (J.obj [("other", J.num 7)])) "other" :=
  ⟨(C1_session_roundtrip_amended (some (J.obj [("other", J.num 7)])) [("1", "s")] rfl).1,
   (C1_session_roundtrip_amended (some (J.obj [("other", J.num 7)])) [("1", "s")] rfl).2
     "other" (by decide)⟩

-- =========================================================================
-- Helper lemmas: the context-restore prompt is never the empty string
-- =========================================================================

theorem joinLines_head_data (x : String) (xs : List String) :
    ∃ t, (joinLines (x :: xs)).data = x.data ++ t := by
  cases xs with
  | nil => exact ⟨[], by simp [joinLines]⟩
  | cons y ys =>
    refine ⟨"\n".data ++ (joinLines (y :: ys)).data, ?_⟩
    show (x ++ "\n" ++ joinLines (y :: ys)).data
      = x.data ++ ("\n".data ++ (joinLines (y :: ys)).data)
    simp [String.data_append]

theorem joinLines_ne_empty (x : String) (xs : List String) (hx : x.data ≠ []) :
    joinLines (x :: xs) ≠ "" := by
  obtain ⟨t, ht⟩ := joinLines_head_data x xs
  intro he
  have hdata := congrArg String.data he
  rw [ht] at hdata
  have hnil := List.append_eq_nil.mp hdata
  exact hx hnil.1

theorem getContextRestore_ne_empty (role : String) (hist : List HEntry)
    (p : String) (hp : getContextRestore role hist = some p) : p ≠ "" := by
  unfold getContextRestore at hp
  by_cases hh : loadHistoryTail hist 15 = []
  · simp [hh] at hp
  · rw [if_neg hh] at hp
    have hp' := Option.some.inj hp
    rw [← hp']
    apply joinLines_ne_empty ("[HIVEMIND CONTEXT RESTORE - " ++ role ++ "]")
    intro h
    rw [String.data_append, String.data_append] at h
    have hnil := List.append_eq_nil.mp h
    exact absurd hnil.2 (by decide)

theorem getContextRestore_of_ne (role : String) (hist : List HEntry)
    (hh : hist ≠ []) : getContextRestore role hist ≠ none := by
  unfold getContextRestore
  have hlen : 0 < hist.length := List.length_pos.mpr hh
  have htail : loadHistoryTail hist 15 ≠ [] := by
    unfold loadHistoryTail
    intro he
    have := congrArg List.length he
    simp only [List.length_drop, List.length_nil] at this
    omega
  simp [htail]

-- =========================================================================
-- C2
-- =========================================================================

/-- C2: when connect finds a non-empty history tail it stores a non-empty
preamble; the first send after that prepends the preamble to the
transmitted message and clears it in the same step; any send with no
pending preamble transmits the sanitized message unchanged and leaves the
pending state empty (so no later send before the next reconnect prepends
anything); and the content handed to the user-side history append is the
sanitized message alone, whatever the pending preamble is. -/
theorem C2_preamble_consumed_once (role : String) (hist : List HEntry)
    (msg msg2 : String) (pend : Option String) :
    (hist ≠ [] → claudeConnectPending role hist ≠ none) ∧
    (∀ p, claudeConnectPending role hist = some p → p ≠ "") ∧
    (∀ p, p ≠ "" →
      claudeSendStep true (some p) msg =
        ⟨some (p ++ contextSep ++ sanitize_unicode_str msg),
         some (sanitize_unicode_str msg), none⟩) ∧
    claudeSendStep true none msg2 =
      ⟨some (sanitize_unicode_str msg2), some (sanitize_unicode_str msg2), none⟩ ∧
    (claudeSendStep true pend msg).historyArg = some (sanitize_unicode_str msg) := by
  refine ⟨getContextRestore_of_ne role hist,
    fun p hp => getContextRestore_ne_empty role hist p hp,
    fun p hp => ?_, ?_, ?_⟩
  · simp [claudeSendStep, bne_iff_ne, hp]
  · simp [claudeSendStep]
  · match pend with
    | none => simp [claudeSendStep]
    | some p =>
      by_cases hp : p = ""
      · simp [claudeSendStep, hp]
      · simp [claudeSendStep, bne_iff_ne, hp]

/-- C2 witness: a one-entry history yields a preamble; a send with pending
preamble "[ctx]" prepends and clears it; a send with no pending preamble
transmits the message unchanged. -/
theorem C2_witness :
    claudeConnectPending "Architect" [⟨"t0", "user", "hi"⟩] ≠ none ∧
    claudeSendStep true (some "[ctx]") "hello" =
      ⟨some ("[ctx]" ++ contextSep ++ sanitize_unicode_str "hello"),
       some (sanitize_unicode_str "hello"), none⟩ ∧
    claudeSendStep true none "again" =
      ⟨some (sanitize_unicode_str "again"), some (sanitize_unicode_str "again"), none⟩ :=
  ⟨(C2_preamble_consumed_once "Architect" [⟨"t0", "user", "hi"⟩] "hello" "again" none).1
     (by simp),
   (C2_preamble_consumed_once "Architect" [⟨"t0", "user", "hi"⟩] "hello" "again" none).2.2.1
     "[ctx]" (by decide),
   (C2_preamble_consumed_once "Architect" [⟨"t0", "user", "hi"⟩] "hello" "again" none).2.2.2.1⟩

-- =========================================================================
-- C6
-- =========================================================================

/-- C6: Append(role, content) writes nothing when the marker-stripped
content is empty but the input was not; otherwise (with the IO succeeding)
it appends exactly one entry whose content is the stripped content
truncated to at most 2000 code points; and an IO failure is swallowed,
returning the history unchanged. -/
theorem C6_history_append (hist : List HEntry) (role content ts : String) :
    (clean_role_markers content = "" → content ≠ "" →
      ∀ io, saveToHistory hist role content ts io = hist) ∧
    (¬(clean_role_markers content = "" ∧ content ≠ "") →
      saveToHistory hist role content ts false =
        hist ++ [⟨ts, role, pyTruncate (clean_role_markers content) 2000⟩] ∧
      (pyTruncate (clean_role_markers content) 2000).data.length ≤ 2000) ∧
    saveToHistory hist role content ts true = hist := by
  refine ⟨fun h1 h2 io => ?_, fun h => ?_, ?_⟩
  · simp [saveToHistory, h1, h2]
  · refine ⟨by simp [saveToHistory, h], ?_⟩
    show (List.take 2000 (clean_role_markers content).data).length ≤ 2000
    rw [List.length_take]
    omega
  · unfold saveToHistory
    by_cases h : clean_role_markers content = "" ∧ content ≠ ""
    · simp [h]
    · simp [h]

/-- C6 witness: a bare marker writes nothing; ordinary content appends one
truncated entry; an IO failure leaves the history unchanged. -/
theorem C6_witness :
    saveToHistory [] "user" "Human:" "t0" false = [] ∧
    saveToHistory [] "user" "hi" "t0" false =
      [⟨"t0", "user", pyTruncate (clean_role_markers "hi") 2000⟩] ∧
    saveToHistory [⟨"t0", "user", "x"⟩] "user" "hi" "t0" true = [⟨"t0", "user", "x"⟩] :=
  ⟨(C6_history_append [] "user" "Human:" "t0").1 (by decide) (by decide) false,
   ((C6_history_append [] "user" "hi" "t0").2.1 (by decide)).1,
   (C6_history_append [⟨"t0", "user", "x"⟩] "user" "hi" "t0").2.2⟩

-- =========================================================================
-- C7
-- =========================================================================

/-- C7 (code bug): a Codex send holding thread id "t0" whose reply attempt
fails with a "not found" error (exit code 1, stderr containing "not found")
yields only the generic exit-code error and an is_error result; it emits no
status with state thread_expired_restarting, keeps the stored thread id
uncleared, and performs no retry — the turn is this single pass.  The
claimed thread-expiry policy does not exist in CodexAgent.send, although
the startup code's comment says CodexAgent handles resume failures. -/
theorem C7_no_thread_expiry_handling :
    (codexSend "2" "Infra" true (some (J.str "t0")) [] "retry me" "ts" true true false
        ⟨[], 1, "thread 't0' not found"⟩).events =
      [emitEv "2" "Infra" "status" [("state", J.str "thinking")],
       evErrorS ("Codex exit code " ++ toString (1 : Int) ++ ": thread 't0' not found"),
       J.obj [("type", J.str "result"), ("session_id", J.str "t0"),
         ("is_error", J.bool true)],
       emitEv "2" "Infra" "status" [("state", J.str "idle")]] ∧
    (codexSend "2" "Infra" true (some (J.str "t0")) [] "retry me" "ts" true true false
        ⟨[], 1, "thread 't0' not found"⟩).threadId = some (J.str "t0") ∧
    ((codexSend "2" "Infra" true (some (J.str "t0")) [] "retry me" "ts" true true false
        ⟨[], 1, "thread 't0' not found"⟩).events.all
      (fun e => jStrField e "state" != some "thread_expired_restarting")) = true := by
  refine ⟨rfl, rfl, ?_⟩
  decide

-- =========================================================================
-- C8
-- =========================================================================

/-- C8 (counterexample): a Codex subprocess that exits with code 1 but an
empty stderr produces no error event and a terminal result event with
is_error = false, against the claim that every non-zero exit sets has_error
and yields an error event. -/
theorem C8_counterexample :
    (codexSend "2" "Infra" true none [] "m" "ts" true true false
        ⟨[], 1, ""⟩).events =
      [emitEv "2" "Infra" "status" [("state", J.str "thinking")],
       J.obj [("type", J.str "result"), ("session_id", J.null),
         ("is_error", J.bool false)],
       emitEv "2" "Infra" "status" [("state", J.str "idle")]] := rfl

/-- C8 (amended): for every Codex send whose stdout loop finishes without
an exception, whose subprocess exits with a non-zero return code, and whose
drained stderr is non-blank, the agent yields an error event with message
"Codex exit code N: <stderr>" and the terminal result event of the turn
carries is_error = true (a non-zero exit with blank stderr yields no error
event and is_error = false). -/
theorem C8_exit_code_error_amended (pane role : String) (tid : Option J)
    (hist : List HEntry) (msg ts : String) (io : Bool) (proc : ProcOutcome)
    (hok : (codexLines tid "" proc.lines).ok = true)
    (hexit : proc.exitCode ≠ 0)
    (hstderr : stripS proc.stderr ≠ "") :
    (codexSend pane role true tid hist msg ts true true io proc).events =
      emitEv pane role "status" [("state", J.str "thinking")] ::
        (codexLines tid "" proc.lines).events ++
        [evErrorS ("Codex exit code " ++ toString proc.exitCode ++ ": " ++ proc.stderr),
         J.obj [("type", J.str "result"),
           ("session_id", ((codexLines tid "" proc.lines).threadId).getD J.null),
           ("is_error", J.bool true)],
         emitEv pane role "status" [("state", J.str "idle")]] := by
  have hb1 : (proc.exitCode != 0) = true := bne_iff_ne.mpr hexit
  have hb2 : (stripS proc.stderr != "") = true := bne_iff_ne.mpr hstderr
  simp [codexSend, hok, hb1, hb2]

/-- C8 witness: a concrete failing turn with one parsed line. -/
theorem C8_witness :
    (codexLines none "" [some (J.obj [("type", J.str "turn.started")])]).ok = true ∧
    (codexSend "2" "Infra" true none [] "m" "ts" true true false
        ⟨[some (J.obj [("type", J.str "turn.started")])], 1, "boom"⟩).events =
      emitEv "2" "Infra" "status" [("state", J.str "thinking")] ::
        (codexLines none "" [some (J.obj [("type", J.str "turn.started")])]).events ++
        [evErrorS ("Codex exit code " ++ toString (1 : Int) ++ ": " ++ "boom"),
         J.obj [("type", J.str "result"),
           ("session_id",
             ((codexLines none "" [some (J.obj [("type", J.str "turn.started")])]).threadId).getD J.null),
           ("is_error", J.bool true)],
         emitEv "2" "Infra" "status" [("state", J.str "idle")]] :=
  ⟨rfl,
   C8_exit_code_error_amended "2" "Infra" none [] "m" "ts" false
     ⟨[some (J.obj [("type", J.str "turn.started")])], 1, "boom"⟩
     rfl (by decide) (by decide)⟩

-- =========================================================================
-- C9
-- =========================================================================

/-- C9 (counterexample): GeminiAgent.disconnect waits up to 5 seconds for
the subprocess (asyncio.wait_for(..., timeout=5.0)), so with a slow
shutdown it spends 5 seconds, not at most 2 as claimed. -/
theorem C9_counterexample :
    (geminiDisconnect true (some "s5") 10).waited = 5 ∧
    ¬(geminiDisconnect true (some "s5") 10).waited ≤ 2 := by
  constructor
  · rfl
  · decide

/-- C9 (amended): ClaudeAgent.disconnect waits at most 2 seconds (emitting
status{disconnected} when a connected client exists), CodexAgent.disconnect
does not wait at all, GeminiAgent.disconnect waits at most 5 seconds; each
emits status{disconnected} (Claude only in the connected-client case) and
returns the stored session token. -/
theorem C9_disconnect_bounds_amended (hasClient connected : Bool)
    (sid : Option String) (tcl : Nat) (tidc : Option String)
    (hasProc : Bool) (sidx : Option String) (tg : Nat) :
    ((claudeDisconnect hasClient connected sid tcl).waited ≤ 2 ∧
     (claudeDisconnect hasClient connected sid tcl).returned = sid ∧
     (hasClient = true → connected = true →
       (claudeDisconnect hasClient connected sid tcl).statusStates = ["disconnected"])) ∧
    codexDisconnect tidc = ⟨0, ["disconnected"], tidc⟩ ∧
    ((geminiDisconnect hasProc sidx tg).waited ≤ 5 ∧
     (geminiDisconnect hasProc sidx tg).statusStates = ["disconnected"] ∧
     (geminiDisconnect hasProc sidx tg).returned = sidx) := by
  refine ⟨⟨?_, ?_, ?_⟩, rfl, ⟨?_, ?_, ?_⟩⟩
  · unfold claudeDisconnect
    by_cases h : hasClient && connected
    · simp only [h, if_true]
      exact min_le_right ..
    · simp [h]
  · unfold claudeDisconnect
    by_cases h : hasClient && connected <;> simp [h]
  · intro h1 h2
    simp [claudeDisconnect, h1, h2]
  · unfold geminiDisconnect
    by_cases h : hasProc
    · simp only [h, if_true]
      exact min_le_right ..
    · simp [h]
  · unfold geminiDisconnect
    by_cases h : hasProc <;> simp [h]
  · unfold geminiDisconnect
    by_cases h : hasProc <;> simp [h]

/-- C9 witness: a connected Claude client with a slow 7-second shutdown is
bounded at 2 seconds and emits the disconnected status. -/
theorem C9_witness :
    (claudeDisconnect true true (some "sid") 7).waited ≤ 2 ∧
    (claudeDisconnect true true (some "sid") 7).statusStates = ["disconnected"] ∧
    (claudeDisconnect true true (some "sid") 7).returned = some "sid" :=
  ⟨(C9_disconnect_bounds_amended true true (some "sid") 7 none true none 0).1.1,
   (C9_disconnect_bounds_amended true true (some "sid") 7 none true none 0).1.2.2 rfl rfl,
   (C9_disconnect_bounds_amended true true (some "sid") 7 none true none 0).1.2.1⟩

-- =========================================================================
-- C10
-- =========================================================================

/-- C10: a send command whose pane_id or message is the empty string is
treated exactly like a missing field — the dispatcher answers with
error{send requires pane_id and message} and spawns no task — and whenever
a task is spawned its message value is truthy, so an empty message can
never be delivered through the send command. -/
theorem C10_empty_send_rejected (cmd : J) :
    ((jGet cmd "pane_id" = some (J.str "") ∨ jGet cmd "message" = some (J.str "") ∨
      jGet cmd "pane_id" = none ∨ jGet cmd "message" = none) →
      dispatchSendCmd cmd = SendDispatch.rejected "send requires pane_id and message") ∧
    ∀ pid m, dispatchSendCmd cmd = SendDispatch.spawned pid m → jTruthy m = true := by
  constructor
  · intro h
    unfold dispatchSendCmd
    rcases h with h | h | h | h <;>
      simp [h, truthyOpt, jTruthy]
  · intro pid m hm
    unfold dispatchSendCmd at hm
    by_cases hcond : truthyOpt (jGet cmd "pane_id") && truthyOpt (jGet cmd "message")
    · rw [if_pos hcond] at hm
      have hmsg : truthyOpt (jGet cmd "message") = true :=
        (Bool.and_eq_true .. ▸ hcond).2
      cases hget : jGet cmd "message" with
      | none => rw [hget] at hmsg; simp [truthyOpt] at hmsg
      | some v =>
        rw [hget] at hmsg
        have hv : jTruthy v = true := hmsg
        have : m = v := by
          have := SendDispatch.spawned.inj hm
          rw [hget] at this
          exact this.2.symm ▸ rfl
        rw [this]
        exact hv
    · rw [if_neg hcond] at hm
      exact absurd hm (by simp)

/-- C10 witness: a send command with an empty message is rejected. -/
theorem C10_witness :
    dispatchSendCmd (J.obj [("command", J.str "send"), ("pane_id", J.str "1"),
      ("message", J.str "")]) =
      SendDispatch.rejected "send requires pane_id and message" ∧
    jTruthy (J.str "hi") = true :=
  ⟨(C10_empty_send_rejected (J.obj [("command", J.str "send"),
     ("pane_id", J.str "1"), ("message", J.str "")])).1 (Or.inr (Or.inl rfl)),
   (C10_empty_send_rejected (J.obj [("command", J.str "send"),
     ("pane_id", J.str "1"), ("message", J.str "hi")])).2 (J.str "1") (J.str "hi") rfl⟩

end Hivemind
